import Mathlib

/-!
Verification of the rebind.js action-dispatch engine (class Rebind).

This file gives a shallow embedding of the current revision of rebind.js
(the binding registry, callback registry, input state tracker, axis
condition evaluator, dispatch engine and poll driver) and proves or
refutes the specification claims about it.

Modelling conventions:
* JavaScript numbers used for gamepad axis values are modelled as
  rationals; the comparisons performed by the source are order
  comparisons that rationals model exactly at the values in question.
* JavaScript objects used as string-keyed tables are modelled as
  association lists in property insertion order.
* A possibly-undefined value is an Option; the JavaScript coercions
  actually used by the source (truthiness of numbers and strings,
  comparisons against undefined) are modelled by explicit helpers.
* Callback functions are opaque: each registered callback is identified
  by a numeric id, and an invocation is recorded as the parameter object
  the source would pass to it, plus that id.
-/

namespace Rebind

/-- JavaScript "a || d" for an optional number field: undefined and 0 are
falsy and select the default. -/
def jsOrQ : Option ℚ → ℚ → ℚ
  | some v, d => if v = 0 then d else v
  | none, d => d

/-- JavaScript "a || d" for an optional integer field: undefined and 0 are
falsy and select the default. -/
def jsOrInt : Option Int → Int → Int
  | some v, d => if v = 0 then d else v
  | none, d => d

/-- JavaScript "a || d" for an optional string field: undefined and the
empty string are falsy and select the default. -/
def jsOrStr : Option String → String → String
  | some v, d => if v = "" then d else v
  | none, d => d

/-- JavaScript "<" on a possibly-undefined number: any comparison with
undefined is false. -/
def optLt : Option ℚ → Option ℚ → Bool
  | some a, some b => a < b
  | _, _ => false

/-- Negation of a possibly-undefined number. -/
def optNeg : Option ℚ → Option ℚ
  | some a => some (-a)
  | none => none

/-- JavaScript "!=" between a number and a possibly-undefined number. -/
def jsNeqQ (a : ℚ) : Option ℚ → Bool
  | some b => a ≠ b
  | none => true

/-- A keyboard event as consumed by the engine: the key name and the
modifier flags read by the modifier gate. -/
structure KeyEvent where
  key : String
  ctrlKey : Bool := false
  altKey : Bool := false
  shiftKey : Bool := false
deriving DecidableEq, Repr

/-- A connected gamepad as read during a poll: its index, the pressed
state of each button, and the four axis values (two per stick). -/
structure Gamepad where
  index : Nat
  buttons : List Bool := []
  ax0 : ℚ := 0
  ax1 : ℚ := 0
  ax2 : ℚ := 0
  ax3 : ℚ := 0
deriving DecidableEq, Repr

/-- The event argument passed to the dispatch routine: either a keyboard
event or a gamepad (possibly undefined, as when the source indexes the
poll array with a stale gamepad index). -/
inductive EvSrc
  | keyEv (e : KeyEvent)
  | padEv (g : Option Gamepad)
deriving DecidableEq, Repr

/-- Reading event.ctrlKey: undefined (hence falsy) on a gamepad. -/
def EvSrc.ctrlKey : EvSrc → Bool
  | .keyEv e => e.ctrlKey
  | .padEv _ => false

/-- Reading event.altKey: undefined (hence falsy) on a gamepad. -/
def EvSrc.altKey : EvSrc → Bool
  | .keyEv e => e.altKey
  | .padEv _ => false

/-- Reading event.shiftKey: undefined (hence falsy) on a gamepad. -/
def EvSrc.shiftKey : EvSrc → Bool
  | .keyEv e => e.shiftKey
  | .padEv _ => false

/-- Generic string/number keyed table in property insertion order,
modelling a JavaScript object. -/
def lookupTab {κ α : Type} [BEq κ] (tab : List (κ × α)) (k : κ) : Option α :=
  (tab.find? (fun p => p.1 == k)).map Prod.snd

/-- JavaScript "k in tab". -/
def memTab {κ α : Type} [BEq κ] (tab : List (κ × α)) (k : κ) : Bool :=
  (lookupTab tab k).isSome

/-- Overwrite the value of an existing key. -/
def setTab {κ α : Type} [BEq κ] (tab : List (κ × α)) (k : κ) (v : α) : List (κ × α) :=
  tab.map fun p => if p.1 == k then (p.1, v) else p

/-- JavaScript "tab[k] = v": overwrite if present, append a new property
otherwise. -/
def putTab {κ α : Type} [BEq κ] (tab : List (κ × α)) (k : κ) (v : α) : List (κ × α) :=
  if memTab tab k then setTab tab k v else tab ++ [(k, v)]

/-- JavaScript "if (!(k in tab)) tab[k] = v0". -/
def ensureTab {κ α : Type} [BEq κ] (tab : List (κ × α)) (k : κ) (v₀ : α) : List (κ × α) :=
  if memTab tab k then tab else tab ++ [(k, v₀)]

/-- The settings object accepted by Rebind.bind.  Absent fields are
none; the boolean modifier gates are read through "!!" so only their
truthiness matters and they are modelled as plain booleans. -/
structure BindSettings where
  ctrl : Bool := false
  shift : Bool := false
  alt : Bool := false
  none : Bool := false
  /-- Whether a "func" property is present in the settings (its value is
  an opaque function the engine stores but the modelled claims never
  inspect). -/
  func : Bool := false
  deadzone : Option ℚ := Option.none
  condition_x : Option String := Option.none
  condition_y : Option String := Option.none
deriving DecidableEq, Repr

/-- An action binding record as pushed onto keydown_actions by
Rebind.bind. -/
structure Binding where
  action : String
  ctrl : Bool := false
  shift : Bool := false
  alt : Bool := false
  none : Bool := false
  input_type : String
  /-- Set when the source stores settings.func as axes_function. -/
  axes_function : Bool := false
  deadzone : Option ℚ := Option.none
  condition_x : Option String := Option.none
  condition_y : Option String := Option.none
  /-- The axis index pair.  The source assigns it only for gp-a-right;
  for every other axis input the assignment writes to this.bind.axes (a
  property of the bind method) instead, leaving this field unset. -/
  axes : Option (Nat × Nat) := Option.none
deriving DecidableEq, Repr

/-- JavaScript String.prototype.startsWith, modelled on the character
list (every identifier involved is plain ASCII). -/
def str_startsWith (s pre : String) : Bool := pre.data.isPrefixOf s.data

/-- Input kind inference from the identifier shape, as in Rebind.bind. -/
def input_type_of (input : String) : String :=
  if input == "any" then "any"
  else if str_startsWith input "gp-b" then "gamepad_button"
  else if str_startsWith input "gp-a" then "gamepad_axes"
  else "key"

/-- The rational 0.1, built so that kernel reduction never has to
normalise a fraction (the gcd computation does not kernel-reduce). -/
def qtenth : ℚ := ⟨1, 10, by norm_num, by norm_num⟩

/-- The rational 0.5 in normal form. -/
def qhalf : ℚ := ⟨1, 2, by norm_num, by norm_num⟩

/-- The rational 0.05 in normal form. -/
def qtwentieth : ℚ := ⟨1, 20, by norm_num, by norm_num⟩

/-- The binding record Rebind.bind builds for one input. -/
def mkBinding (action input : String) (s : BindSettings) : Binding :=
  let t := input_type_of input
  let b : Binding :=
    { action := action, ctrl := s.ctrl, shift := s.shift, alt := s.alt,
      none := s.none, input_type := t }
  if t == "gamepad_axes" then
    let b :=
      if s.func then { b with axes_function := true }
      else
        { b with deadzone := some (jsOrQ s.deadzone qtenth),
                 condition_x := some (jsOrStr s.condition_x "any"),
                 condition_y := some (jsOrStr s.condition_y "any") }
    if input == "gp-a-right" then { b with axes := some (2, 3) } else b
  else b

/-- The binding registry: keydown_actions, keyed by input identifier. -/
abbrev Registry := List (String × List Binding)

/-- Rebind.bind restricted to a single input. -/
def bind1 (action : String) (s : BindSettings) (reg : Registry) (input : String) : Registry :=
  let reg' : Registry := ensureTab reg input []
  match lookupTab reg' input with
  | Option.none => reg'
  | some bs =>
      if bs.any (fun b => b.action == action) then reg'
      else setTab reg' input (bs ++ [mkBinding action input s])

/-- Rebind.bind: map each listed input to the action unless that
(input, action) pair is already bound. -/
def bind (action : String) (inputs : List String) (s : BindSettings) (reg : Registry) : Registry :=
  inputs.foldl (bind1 action s) reg

/-- Remove the first element satisfying the predicate, as the source's
indexOf(find)+splice idiom does. -/
def erase_first {α : Type} (p : α → Bool) : List α → List α
  | [] => []
  | x :: xs => if p x then xs else x :: erase_first p xs

/-- Rebind.clear: the source first empties the binding list of the INPUT
whose identifier equals the action name (keydown_actions[action].length
= 0), then removes the first binding for the action from every input. -/
def clear (action : String) (reg : Registry) : Registry :=
  let reg' : Registry := if memTab reg action then setTab reg action [] else reg
  reg'.map fun p => (p.1, erase_first (fun b => b.action == action) p.2)

/-- Rebind.remove restricted to a single passed input. -/
def remove1 (action : String) (reg : Registry) (passed : String) : Registry :=
  reg.map fun p =>
    if p.1 == passed then (p.1, erase_first (fun b => b.action == action) p.2) else p

/-- Rebind.remove: drop the binding for the action from each listed
input. -/
def remove (action : String) (inputs : List String) (reg : Registry) : Registry :=
  inputs.foldl (remove1 action) reg

/-- A callback record as stored by Rebind.on: an opaque callback
identity, the remaining expiry count and the requested frequency. -/
structure CallbackRec where
  id : Nat
  expiry : Int
  frequency : String
deriving DecidableEq, Repr

/-- The settings object accepted by Rebind.on. -/
structure OnSettings where
  expiry : Option Int := Option.none
  frequency : Option String := Option.none
deriving DecidableEq, Repr

/-- The callback registry: action_functions, keyed by action name. -/
abbrev CbRegistry := List (String × List CallbackRec)

/-- Rebind.on: append a callback record to the action's list, creating
the list on first use. -/
def on' (action : String) (id : Nat) (s : OnSettings) (fns : CbRegistry) : CbRegistry :=
  let fns' : CbRegistry := ensureTab fns action []
  match lookupTab fns' action with
  | Option.none => fns'
  | some arr =>
      setTab fns' action
        (arr ++ [{ id := id, expiry := jsOrInt s.expiry 0,
                   frequency := jsOrStr s.frequency "default" }])

/-- Outcome of one arm of the axis-condition switch: early return,
increment of the either_failed counter, or fall-through. -/
inductive AxisStep
  | ret
  | inc
  | pass
deriving DecidableEq, Repr

/-- One arm of the axis-condition switch in process_actions, for one
axis value v against the binding's deadzone. -/
def axis_step (cond : Option String) (v dz : Option ℚ) : AxisStep :=
  let inside := optLt (optNeg dz) v && optLt v dz
  match cond with
  | some c =>
      if c == "pos" then (if optLt v dz then .ret else .pass)
      else if c == "neg" then (if optLt (optNeg dz) v then .ret else .pass)
      else if c == "any" then (if inside then .inc else .pass)
      else if c == "either" then (if inside then .ret else .pass)
      else if c == "deadzone" then (if !inside then .ret else .pass)
      else .pass
  | Option.none => .pass

/-- The axis-condition block of process_actions: run the switch on the x
then the y axis; an early return fails, and if both axes were counted by
the "any" arm (either_failed == 2) the whole check fails. -/
def axes_ok (b : Binding) (axes : List ℚ) : Bool :=
  let s0 := axis_step b.condition_x (axes.get? 0) b.deadzone
  if s0 == .ret then false
  else
    let s1 := axis_step b.condition_y (axes.get? 1) b.deadzone
    if s1 == .ret then false
    else !(s0 == .inc && s1 == .inc)

/-- The frequency filter of process_actions, transcribed with the
source's control flow.  Note that in the repeat branch the final
  else if (func.frequency != context) return
attaches to the preceding
  if (action.input_type == "gamepad_axes")
statement, so for a gamepad_button or any binding BOTH the
context == "change" test and the frequency == context test apply. -/
def freq_ok (input_type frequency context : String) : Bool :=
  if frequency != "continuous" && frequency != "change" && frequency != "repeat" then
    !(input_type == "gamepad_axes" && context != "continuous") &&
    !(input_type == "gamepad_button" && context != "change") &&
    !(input_type == "any" && context != "change") &&
    !(input_type == "key" && context != "repeat")
  else if frequency == "repeat" then
    !((input_type == "gamepad_button" || input_type == "any") && context != "change") &&
    (if input_type == "gamepad_axes" then context == "continuous" else frequency == context)
  else frequency == context

/-- The parameter object passed to an invoked callback, together with
the identity of the callback invoked. -/
structure Invocation where
  cb : Nat
  input_name : String
  input_type : String
  key_action : String
  event : Option KeyEvent
  gamepad : Option (Option Gamepad)
  expiry : Int
  frequency : String
  axes : Option (List ℚ)
deriving DecidableEq, Repr

/-- Build the params object for one callback invocation. -/
def mkInvocation (b : Binding) (input key_action : String) (ev : EvSrc) (axes : List ℚ)
    (f : CallbackRec) : Invocation :=
  { cb := f.id
    input_name := input
    input_type := b.input_type
    key_action := key_action
    event := if b.input_type == "key" then
        (match ev with | .keyEv e => some e | .padEv _ => Option.none) else Option.none
    gamepad := if b.input_type != "key" then
        (match ev with | .padEv g => some g | .keyEv _ => Option.none) else Option.none
    expiry := f.expiry
    frequency := f.frequency
    axes := if b.input_type == "gamepad_axes" then some axes else Option.none }

/-- The forEach over the action's callback array in process_actions.
JavaScript forEach fixes the iteration count at the initial length and
skips an index that no longer exists, so the loop carries the remaining
step count and the current index over the mutating array.

Expiry removal: the source's splice index is the arrow function's
parameter i, but the axis-condition block redeclares it with var, so
whenever that block ran (gamepad_axes input kind with a non-released
occurrence) the variable holds 2 (the loop bound) at splice time instead
of the record's index. -/
def dispatchLoop (b : Binding) (input key_action : String) (ev : EvSrc) (context : String)
    (axes : List ℚ) :
    Nat → Nat → List CallbackRec → List Invocation → List CallbackRec × List Invocation
  | 0, _, arr, invs => (arr, invs)
  | rem + 1, k, arr, invs =>
      match arr.get? k with
      | Option.none => dispatchLoop b input key_action ev context axes rem (k + 1) arr invs
      | some f =>
          if !freq_ok b.input_type f.frequency context then
            dispatchLoop b input key_action ev context axes rem (k + 1) arr invs
          else if b.input_type == "gamepad_axes" && key_action != "released"
                  && !axes_ok b axes then
            dispatchLoop b input key_action ev context axes rem (k + 1) arr invs
          else
            let inv := mkInvocation b input key_action ev axes f
            if f.expiry > 0 then
              let e := f.expiry - 1
              let arr' := arr.set k { f with expiry := e }
              let arr'' :=
                if e == 0 then
                  arr'.eraseIdx
                    (if b.input_type == "gamepad_axes" && key_action != "released" then 2
                     else k)
                else arr'
              dispatchLoop b input key_action ev context axes rem (k + 1) arr'' (invs ++ [inv])
            else
              dispatchLoop b input key_action ev context axes rem (k + 1) arr (invs ++ [inv])

/-- Rebind's private process_actions: look up the bindings of the input
(or of "any" on the wildcard pass), apply the modifier gate to key/any
bindings, and for each binding run the callback array of its action
through the frequency filter, the axis-condition block, invocation and
expiry bookkeeping.  Returns the updated callback registry and the
invocations made, in order. -/
def process_actions (input key_action : String) (ev : EvSrc) (context : String)
    (axes : List ℚ) (any : Bool) (keydown_actions : Registry) (fns : CbRegistry) :
    CbRegistry × List Invocation :=
  match lookupTab keydown_actions (if any then "any" else input) with
  | Option.none => (fns, [])
  | some actions =>
      actions.foldl
        (fun acc b =>
          if (b.input_type == "key" || b.input_type == "any") &&
             ((b.ctrl && !ev.ctrlKey) || (b.alt && !ev.altKey) || (b.shift && !ev.shiftKey) ||
              (b.none && (ev.ctrlKey || ev.altKey || ev.shiftKey))) then acc
          else
            match lookupTab acc.1 b.action with
            | Option.none => acc
            | some arr =>
                let r := dispatchLoop b input key_action ev context axes arr.length 0 arr []
                (setTab acc.1 b.action r.1, acc.2 ++ r.2))
        (fns, [])

/-- The stored state of one keyboard key: the last key_action string
("none" before any edge was seen) and the event that produced it. -/
structure KeyState where
  state : String
  event : KeyEvent
deriving DecidableEq, Repr

/-- The stored last state of one gamepad button: the string "none" as
written at first sight, or a boolean. -/
inductive BState
  | unseen
  | b (v : Bool)
deriving DecidableEq, Repr

/-- JavaScript "!=" between the stored last button state (possibly
undefined) and the freshly read pressed boolean. -/
def jsNeqB : Option BState → Bool → Bool
  | Option.none, _ => true
  | some .unseen, _ => true
  | some (.b v), p => v ≠ p

/-- The last-read axis values of one gamepad, indices 0-3; a component
is none while never written (a JavaScript array hole). -/
structure LastAxes where
  a0 : Option ℚ := Option.none
  a1 : Option ℚ := Option.none
  a2 : Option ℚ := Option.none
  a3 : Option ℚ := Option.none
deriving DecidableEq, Repr

/-- The deadzone used by the poll driver for the return-to-rest release
detection (this.release_deadzone, set to 0.1 and never changed). -/
def release_deadzone : ℚ := qtenth

/-- Whether an axis component lies strictly inside the release deadzone,
as tested by update(). -/
def inside_release (v : ℚ) : Bool := v < release_deadzone && -release_deadzone < v

/-- The mutable state of one Rebind instance. -/
structure RebindState where
  keydown_actions : Registry := []
  action_functions : CbRegistry := []
  connected_gamepads : List (Nat × Gamepad) := []
  key_states : List (String × KeyState) := []
  gamepad_button_states : List (Nat × List (Nat × Bool)) := []
  last_gamepad_button_states : List (Nat × List (Nat × BState)) := []
  last_gamepad_axes : List (Nat × LastAxes) := []
deriving DecidableEq, Repr

/-- Rebind's private handle_keydown, the keydown/keyup listener body:
edge detection against the stored key state (change deliveries, plus a
continuous release delivery on a release edge), unconditional state
overwrite, then the repeat delivery and its wildcard counterpart.
Returns the new state and the invocations made, in order. -/
def handle_keydown (event : KeyEvent) (key_action : String) (st : RebindState) :
    RebindState × List Invocation :=
  let prev : String :=
    match lookupTab st.key_states event.key with
    | some s => s.state
    | Option.none => "none"
  let r1 :=
    if prev != key_action then
      let a := process_actions event.key key_action (.keyEv event) "change" [] false
        st.keydown_actions st.action_functions
      let b := process_actions event.key key_action (.keyEv event) "change" [] true
        st.keydown_actions a.1
      if key_action == "released" then
        let c := process_actions event.key key_action (.keyEv event) "continuous" [] false
          st.keydown_actions b.1
        let d := process_actions event.key key_action (.keyEv event) "continuous" [] true
          st.keydown_actions c.1
        (d.1, a.2 ++ b.2 ++ c.2 ++ d.2)
      else (b.1, a.2 ++ b.2)
    else (st.action_functions, [])
  let key_states' := putTab st.key_states event.key { state := key_action, event := event }
  let r2 :=
    if memTab st.keydown_actions event.key then
      process_actions event.key key_action (.keyEv event) "repeat" [] false
        st.keydown_actions r1.1
    else (r1.1, [])
  let r3 :=
    if memTab st.keydown_actions "any" then
      process_actions event.key key_action (.keyEv event) "repeat" [] true
        st.keydown_actions r2.1
    else (r2.1, [])
  ({ st with action_functions := r3.1, key_states := key_states' },
   r1.2 ++ r2.2 ++ r3.2)

/-- Rebind's private gamepadHandler on connection: record the gamepad,
initialise the button state tables and seed last_gamepad_axes with the
current axis values. -/
def gamepadHandler_connect (gp : Gamepad) (st : RebindState) : RebindState :=
  let connected := putTab st.connected_gamepads gp.index gp
  let gbs := ensureTab st.gamepad_button_states gp.index []
  let lgbs := ensureTab st.last_gamepad_button_states gp.index []
  let lax := ensureTab st.last_gamepad_axes gp.index
    { a0 := some gp.ax0, a1 := some gp.ax1, a2 := some gp.ax2, a3 := some gp.ax3 }
  let inner :=
    gp.buttons.enum.foldl
      (fun (gl : List (Nat × Bool) × List (Nat × BState)) ib =>
        (putTab gl.1 ib.1 ib.2,
         putTab gl.2 ib.1 (if ib.2 then BState.unseen else BState.b false)))
      ((lookupTab gbs gp.index).getD [], (lookupTab lgbs gp.index).getD [])
  { st with
    connected_gamepads := connected
    gamepad_button_states := putTab gbs gp.index inner.1
    last_gamepad_button_states := putTab lgbs gp.index inner.2
    last_gamepad_axes := lax }

/-- Working state threaded through one run of update(): the instance
state, the invocations made so far, and the function-scoped var input
of update() (undefined until a gamepad button iteration assigns it). -/
structure UState where
  st : RebindState
  invs : List Invocation := []
  cur_input : Option String := Option.none
deriving DecidableEq, Repr

/-- One iteration of update()'s per-button loop: record the button
state, and while the button reads pressed issue the continuous press
delivery and its wildcard counterpart (each guarded by a registry
membership test in the source). -/
def poll_button (gp : Gamepad) (u : UState) (ib : Nat × Bool) : UState :=
  let input := "gp-b" ++ toString ib.1
  let inner := putTab ((lookupTab u.st.gamepad_button_states gp.index).getD []) ib.1 ib.2
  let gbs := putTab u.st.gamepad_button_states gp.index inner
  let st := { u.st with gamepad_button_states := gbs }
  let r1 :=
    if ib.2 && memTab st.keydown_actions input then
      process_actions input "pressed" (.padEv (some gp)) "continuous" [] false
        st.keydown_actions st.action_functions
    else (st.action_functions, [])
  let r2 :=
    if ib.2 && memTab st.keydown_actions "any" then
      process_actions input "pressed" (.padEv (some gp)) "continuous" [] true
        st.keydown_actions r1.1
    else (r1.1, [])
  { st := { st with action_functions := r2.1 }
    invs := u.invs ++ r1.2 ++ r2.2
    cur_input := some input }

/-- The two unconditional continuous axis deliveries update() makes for
every polled gamepad, one per stick. -/
def poll_stick_continuous (gp : Gamepad) (u : UState) : UState :=
  let r1 := process_actions "gp-a-left" "pressed" (.padEv (some gp)) "continuous"
    [gp.ax0, gp.ax1] false u.st.keydown_actions u.st.action_functions
  let r2 := process_actions "gp-a-right" "pressed" (.padEv (some gp)) "continuous"
    [gp.ax2, gp.ax3] false u.st.keydown_actions r1.1
  { u with st := { u.st with action_functions := r2.1 }, invs := u.invs ++ r1.2 ++ r2.2 }

/-- The left-stick change block of update(): lazily create the
last_gamepad_axes entry, and when either component differs from the last
poll issue the change press deliveries, store the new pair, and if both
components now lie inside the release deadzone issue the four
return-to-rest release deliveries. -/
def poll_left_change (gp : Gamepad) (u : UState) : UState :=
  let lax := ensureTab u.st.last_gamepad_axes gp.index {}
  let la := (lookupTab lax gp.index).getD {}
  if jsNeqQ gp.ax0 la.a0 || jsNeqQ gp.ax1 la.a1 then
    let r1 := process_actions "gp-a-left" "pressed" (.padEv (some gp)) "change"
      [gp.ax0, gp.ax1] false u.st.keydown_actions u.st.action_functions
    let r2 := process_actions "gp-a-left" "pressed" (.padEv (some gp)) "change"
      [gp.ax0, gp.ax1] true u.st.keydown_actions r1.1
    let lax' := setTab lax gp.index { la with a0 := some gp.ax0, a1 := some gp.ax1 }
    if inside_release gp.ax0 && inside_release gp.ax1 then
      let r3 := process_actions "gp-a-left" "released" (.padEv (some gp)) "change"
        [gp.ax0, gp.ax1] false u.st.keydown_actions r2.1
      let r4 := process_actions "gp-a-left" "released" (.padEv (some gp)) "continuous"
        [gp.ax0, gp.ax1] false u.st.keydown_actions r3.1
      let r5 := process_actions "gp-a-left" "released" (.padEv (some gp)) "change"
        [gp.ax0, gp.ax1] true u.st.keydown_actions r4.1
      let r6 := process_actions "gp-a-left" "released" (.padEv (some gp)) "continuous"
        [gp.ax0, gp.ax1] true u.st.keydown_actions r5.1
      { u with
        st := { u.st with action_functions := r6.1, last_gamepad_axes := lax' }
        invs := u.invs ++ r1.2 ++ r2.2 ++ r3.2 ++ r4.2 ++ r5.2 ++ r6.2 }
    else
      { u with
        st := { u.st with action_functions := r2.1, last_gamepad_axes := lax' }
        invs := u.invs ++ r1.2 ++ r2.2 }
  else { u with st := { u.st with last_gamepad_axes := lax } }

/-- The right-stick change block of update(), symmetric to the left
one on axis indices 2 and 3. -/
def poll_right_change (gp : Gamepad) (u : UState) : UState :=
  let lax := u.st.last_gamepad_axes
  let la := (lookupTab lax gp.index).getD {}
  if jsNeqQ gp.ax2 la.a2 || jsNeqQ gp.ax3 la.a3 then
    let r1 := process_actions "gp-a-right" "pressed" (.padEv (some gp)) "change"
      [gp.ax2, gp.ax3] false u.st.keydown_actions u.st.action_functions
    let r2 := process_actions "gp-a-right" "pressed" (.padEv (some gp)) "change"
      [gp.ax2, gp.ax3] true u.st.keydown_actions r1.1
    let lax' := setTab lax gp.index { la with a2 := some gp.ax2, a3 := some gp.ax3 }
    if inside_release gp.ax2 && inside_release gp.ax3 then
      let r3 := process_actions "gp-a-right" "released" (.padEv (some gp)) "change"
        [gp.ax2, gp.ax3] false u.st.keydown_actions r2.1
      let r4 := process_actions "gp-a-right" "released" (.padEv (some gp)) "continuous"
        [gp.ax2, gp.ax3] false u.st.keydown_actions r3.1
      let r5 := process_actions "gp-a-right" "released" (.padEv (some gp)) "change"
        [gp.ax2, gp.ax3] true u.st.keydown_actions r4.1
      let r6 := process_actions "gp-a-right" "released" (.padEv (some gp)) "continuous"
        [gp.ax2, gp.ax3] true u.st.keydown_actions r5.1
      { u with
        st := { u.st with action_functions := r6.1, last_gamepad_axes := lax' }
        invs := u.invs ++ r1.2 ++ r2.2 ++ r3.2 ++ r4.2 ++ r5.2 ++ r6.2 }
    else
      { u with
        st := { u.st with action_functions := r2.1, last_gamepad_axes := lax' }
        invs := u.invs ++ r1.2 ++ r2.2 }
  else u

/-- Indexing navigator.getGamepads() with a stored gamepad index. -/
def padAt (gamepads : List (Option Gamepad)) (i : Nat) : Option Gamepad :=
  ((gamepads.get? i).getD Option.none)

/-- One iteration of update()'s button change detection loop, for one
(button, pressed) entry of one gamepad's recorded button states. -/
def detect_button_change (gamepads : List (Option Gamepad)) (index : Nat) (u : UState)
    (bp : Nat × Bool) : UState :=
  let lgbs0 :=
    if memTab u.st.last_gamepad_button_states index then u.st.last_gamepad_button_states
    else putTab u.st.last_gamepad_button_states index [(bp.1, BState.unseen)]
  let cur := lookupTab ((lookupTab lgbs0 index).getD []) bp.1
  if jsNeqB cur bp.2 then
    let input := "gp-b" ++ toString bp.1
    let ka := if bp.2 then "pressed" else "released"
    let ev : EvSrc := .padEv (padAt gamepads index)
    let r1 := process_actions input ka ev "change" [] false
      u.st.keydown_actions u.st.action_functions
    let r2 := process_actions input ka ev "change" [] true u.st.keydown_actions r1.1
    let r3 :=
      if !bp.2 then
        process_actions input "released" ev "continuous" [] false u.st.keydown_actions r2.1
      else (r2.1, [])
    let lgbs := putTab lgbs0 index (putTab ((lookupTab lgbs0 index).getD []) bp.1 (.b bp.2))
    { st := { u.st with action_functions := r3.1, last_gamepad_button_states := lgbs }
      invs := u.invs ++ r1.2 ++ r2.2 ++ r3.2
      cur_input := some input }
  else { u with st := { u.st with last_gamepad_button_states := lgbs0 } }

/-- One iteration of update()'s continuous key loop.  The wildcard call
reads the function-scoped var input left over from the gamepad button
loops (undefined when no gamepad button was handled this frame), not the
key name. -/
def key_continuous_step (u : UState) (ks : String × KeyState) : UState :=
  let r1 :=
    if ks.2.state == "pressed" then
      process_actions ks.1 "pressed" (.keyEv ks.2.event) "continuous" [] false
        u.st.keydown_actions u.st.action_functions
    else (u.st.action_functions, [])
  let r2 :=
    if ks.2.state == "pressed" then
      process_actions (u.cur_input.getD "undefined") "pressed" (.keyEv ks.2.event)
        "continuous" [] true u.st.keydown_actions r1.1
    else (r1.1, [])
  { u with st := { u.st with action_functions := r2.1 }, invs := u.invs ++ r1.2 ++ r2.2 }

/-- Rebind.update, the per-frame poll driver: for each non-null gamepad
run the button poll loop, the two unconditional continuous axis
deliveries and the two stick change blocks; then the button change
detection loop over all recorded button states; then the continuous key
loop.  Returns the new state and the invocations made, in order. -/
def update (gamepads : List (Option Gamepad)) (st : RebindState) :
    RebindState × List Invocation :=
  let u : UState := { st := st }
  let u := gamepads.foldl
    (fun u og =>
      match og with
      | Option.none => u
      | some gp =>
          poll_right_change gp (poll_left_change gp
            (poll_stick_continuous gp (gp.buttons.enum.foldl (poll_button gp) u))))
    u
  let u := u.st.gamepad_button_states.foldl
    (fun u p => p.2.foldl (detect_button_change gamepads p.1) u) u
  let u := u.st.key_states.foldl key_continuous_step u
  (u.st, u.invs)

/-! Concrete scenarios used by the claim theorems. -/

/-- C1 scenario registry: action bound to a gamepad button input. -/
def regC1 : Registry := bind "jump" ["gp-b0"] {} []

/-- C1 scenario callbacks: one repeat-frequency callback on the action. -/
def fnsC1 : CbRegistry := on' "jump" 0 { frequency := some "repeat" } []

/-- C1 scenario registry for the wildcard kind: action bound to any. -/
def regC1w : Registry := bind "press" ["any"] {} []

/-- C1 scenario callbacks for the wildcard kind. -/
def fnsC1w : CbRegistry := on' "press" 0 { frequency := some "repeat" } []

/-- C2 scenario: the action walk is bound to the input identifier jump. -/
def regC2 : Registry := bind "walk" ["jump"] {} []

/-- C3 scenario registry: an action bound to the left stick with default
axis settings. -/
def regC3 : Registry := bind "fire" ["gp-a-left"] {} []

/-- C3 scenario callbacks: one continuous callback with expiry 1. -/
def fnsC3 : CbRegistry := on' "fire" 0 { expiry := some 1, frequency := some "continuous" } []

/-- C3 scenario: first continuous press delivery from the left stick at
(0.5, 0.5). -/
def deliveryC3_1 : CbRegistry × List Invocation :=
  process_actions "gp-a-left" "pressed" (.padEv Option.none) "continuous"
    [qhalf, qhalf] false regC3 fnsC3

/-- C3 scenario: second, identical continuous press delivery, running on
the callback registry left by the first one. -/
def deliveryC3_2 : CbRegistry × List Invocation :=
  process_actions "gp-a-left" "pressed" (.padEv Option.none) "continuous"
    [qhalf, qhalf] false regC3 deliveryC3_1.1

/-- C4 scenario registry: move bound to the left stick with default axis
settings. -/
def regC4 : Registry := bind "move" ["gp-a-left"] {} []

/-- C4 scenario callbacks: one continuous-frequency callback on move. -/
def fnsC4 : CbRegistry := on' "move" 0 { frequency := some "continuous" } []

/-- A buttonless gamepad at rest. -/
def gpC4rest : Gamepad := { index := 0 }

/-- The same gamepad with the left stick at (0.5, 0). -/
def gpC4half : Gamepad := { index := 0, ax0 := qhalf }

/-- C4 initial state: registries set up, then the gamepad connected
while at rest (seeding the last-axis tracker with zeros). -/
def stC4 : RebindState :=
  gamepadHandler_connect gpC4rest { keydown_actions := regC4, action_functions := fnsC4 }

/-- C4 poll 1: left stick reads (0.5, 0). -/
def pollC4_1 : RebindState × List Invocation := update [some gpC4half] stC4

/-- C4 poll 2: left stick still reads (0.5, 0). -/
def pollC4_2 : RebindState × List Invocation := update [some gpC4half] pollC4_1.1

/-- C4 poll 3: left stick back at (0, 0). -/
def pollC4_3 : RebindState × List Invocation := update [some gpC4rest] pollC4_2.1

/-- C5 scenario registry: jump bound to the space key and a gamepad
button. -/
def regC5 : Registry := bind "jump" ["space", "gp-b0"] {} []

/-- C5 scenario callbacks: one change-frequency callback on jump. -/
def fnsC5 : CbRegistry := on' "jump" 0 { frequency := some "change" } []

/-- C5 initial state: no key has any recorded state. -/
def stC5 : RebindState := { keydown_actions := regC5, action_functions := fnsC5 }

/-- C5 step 1: space key-down event. -/
def keydownC5 : RebindState × List Invocation :=
  handle_keydown { key := "space" } "pressed" stC5

/-- C5 step 2: space key-up event. -/
def keyupC5 : RebindState × List Invocation :=
  handle_keydown { key := "space" } "released" keydownC5.1

/-- C7 scenario registry: an action bound to the left stick with default
axis settings. -/
def regC7 : Registry := bind "m" ["gp-a-left"] {} []

/-- C7 scenario callbacks: one change-frequency callback, which receives
a change release delivery and nothing else on a poll whose only press
deliveries are filtered out or continuous. -/
def fnsC7 : CbRegistry := on' "m" 0 { frequency := some "change" } []

/-- C7 scenario state with a given last-recorded left-stick pair (the
right-stick components last read zero). -/
def stC7 (p0 p1 : ℚ) : RebindState :=
  { keydown_actions := regC7
    action_functions := fnsC7
    last_gamepad_axes := [(0, { a0 := some p0, a1 := some p1, a2 := some 0, a3 := some 0 })] }

/-- A buttonless gamepad with a given left-stick reading and the right
stick at rest. -/
def gpLeft (a0 a1 : ℚ) : Gamepad := { index := 0, ax0 := a0, ax1 := a1 }

/-- C9 scenario registry: an action bound to a plain key. -/
def regC9 : Registry := bind "a" ["x"] {} []

/-- C9 callback registry builder for the action. -/
def fnsC9 (recs : List CallbackRec) : CbRegistry := [("a", recs)]

/-- C9 scenario dispatch: one change-context press occurrence of the
bound key against a given callback list. -/
def dispatchC9 (recs : List CallbackRec) : CbRegistry × List Invocation :=
  process_actions "x" "pressed" (.keyEv { key := "x" }) "change" [] false regC9 (fnsC9 recs)

/-- An operation on the binding registry reachable through the public
interface, for stating registry invariants. -/
inductive RegOp
  | bindOp (action : String) (inputs : List String) (s : BindSettings)
  | removeOp (action : String) (inputs : List String)
  | clearOp (action : String)

/-- Apply one public registry operation. -/
def applyOp (reg : Registry) : RegOp → Registry
  | .bindOp a is s => bind a is s reg
  | .removeOp a is => remove a is reg
  | .clearOp a => clear a reg

/-- Apply a sequence of public registry operations to the initial empty
registry of a fresh Rebind instance. -/
def applyOps (ops : List RegOp) : Registry := ops.foldl applyOp []

/-- Number of bindings for one action in one binding list. -/
def countIn (bs : List Binding) (A : String) : Nat :=
  (bs.filter (fun b => b.action == A)).length

/-- Total number of bindings registered for the (input, action) pair
across the whole registry. -/
def countPair (reg : Registry) (i A : String) : Nat :=
  (reg.map (fun p => if p.1 == i then countIn p.2 A else 0)).sum

/-- Well-formedness of the binding registry as maintained by the public
operations: entry keys are distinct (JavaScript object properties are
unique) and at most one binding exists per (input, action) pair. -/
def RegWF (reg : Registry) : Prop :=
  (reg.map Prod.fst).Nodup ∧ ∀ i A, countPair reg i A ≤ 1

/-! Helper lemmas. -/

/-- The frequency filter never lets a repeat-frequency callback through
for a gamepad_button binding: the filter demands context change in its
first test and context repeat in the dangling-else test. -/
theorem freq_ok_repeat_button (ctx : String) :
    freq_ok "gamepad_button" "repeat" ctx = false := by
  by_cases h : ctx = "change"
  · subst h; decide
  · simp [freq_ok, h]

/-- The frequency filter never lets a repeat-frequency callback through
for an any binding, for the same reason as for gamepad_button. -/
theorem freq_ok_repeat_any (ctx : String) :
    freq_ok "any" "repeat" ctx = false := by
  by_cases h : ctx = "change"
  · subst h; decide
  · simp [freq_ok, h]

/-- The constant qtenth is the rational 0.1. -/
theorem qtenth_eq : qtenth = 1 / 10 := by
  rw [show qtenth = Rat.mk' 1 10 (by norm_num) (by norm_num) from rfl, Rat.mk'_eq_divInt,
    Rat.divInt_eq_div]
  norm_num

/-- The constant qhalf is the rational 0.5. -/
theorem qhalf_eq : qhalf = 1 / 2 := by
  rw [show qhalf = Rat.mk' 1 2 (by norm_num) (by norm_num) from rfl, Rat.mk'_eq_divInt,
    Rat.divInt_eq_div]
  norm_num

/-- The constant qtwentieth is the rational 0.05. -/
theorem qtwentieth_eq : qtwentieth = 1 / 20 := by
  rw [show qtwentieth = Rat.mk' 1 20 (by norm_num) (by norm_num) from rfl, Rat.mk'_eq_divInt,
    Rat.divInt_eq_div]
  norm_num

/-! Claim theorems. -/

/-- C1: the claim says repeat-frequency callbacks fire on change context
for gamepad_button and any input kinds.  In the current source they can
never fire for those kinds, in any context and for any key action: the
dangling else attaches the frequency == context test to the
gamepad_axes case, so a gamepad_button or any binding needs the context
to equal both "change" and "repeat" at once.  The claim's clauses for
the gamepad_axes kind (continuous context) and the key kind (repeat
context) do hold. -/
theorem C1_repeat_gamepad_button_never_fires : ∀ (ka ctx : String) (ev : EvSrc),
    (process_actions "gp-b0" ka ev ctx [] false regC1 fnsC1 = (fnsC1, []) ∧
     process_actions "k" ka ev ctx [] true regC1w fnsC1w = (fnsC1w, [])) ∧
    freq_ok "gamepad_axes" "repeat" "continuous" = true ∧
    freq_ok "key" "repeat" "repeat" = true := by
  intro ka ctx ev
  have hreg : regC1 = [("gp-b0",
      [{ action := "jump", input_type := "gamepad_button" }])] := by decide
  have hfns : fnsC1 = [("jump", [{ id := 0, expiry := 0, frequency := "repeat" }])] := by decide
  have hregw : regC1w = [("any",
      [{ action := "press", input_type := "any" }])] := by decide
  have hfnsw : fnsC1w = [("press", [{ id := 0, expiry := 0, frequency := "repeat" }])] := by
    decide
  refine ⟨⟨?_, ?_⟩, by decide, by decide⟩
  · rw [hreg, hfns]
    simp [process_actions, dispatchLoop, lookupTab, setTab, freq_ok_repeat_button]
  · rw [hregw, hfnsw]
    simp [process_actions, dispatchLoop, lookupTab, setTab, freq_ok_repeat_any]

/-- C2: the claim says clear(A) leaves bindings of other actions
untouched, including on an input identifier whose string equals A.  In
the source, clear("jump") first runs keydown_actions["jump"].length = 0,
which deletes the binding of the unrelated action "walk" from the input
named "jump"; the registry entry for that input ends up empty. -/
theorem C2_clear_wipes_input_named_like_action :
    lookupTab regC2 "jump" = some [mkBinding "walk" "jump" {}] ∧
    (mkBinding "walk" "jump" {}).action = "walk" ∧
    lookupTab (clear "jump" regC2) "jump" = some [] := by decide

/-- C3: the claim says a callback with expiry 1 is invoked at most once
and its record is then removed.  For an axis-bound action the var
declaration in the axis-condition loop overwrites the forEach index, so
after a press delivery the expiry splice targets index 2 instead of the
record: the record stays (with expiry 0) and the second identical delivery
invokes it again. -/
theorem C3_expired_axis_callback_still_invoked :
    deliveryC3_1.2.map (fun v => v.cb) = [0] ∧
    lookupTab deliveryC3_1.1 "fire" =
      some [{ id := 0, expiry := 0, frequency := "continuous" }] ∧
    deliveryC3_2.2.map (fun v => v.cb) = [0] := by decide

/-- C4: move is bound to gp-a-left with default axis settings and a
continuous-frequency callback is registered; with the stick starting at
rest, three polls reading (0.5, 0), (0.5, 0), (0, 0) invoke the callback
exactly once per poll, as pressed, pressed, released. -/
theorem C4_axis_three_poll_scenario :
    pollC4_1.2.map (fun v => (v.cb, v.key_action)) = [(0, "pressed")] ∧
    pollC4_2.2.map (fun v => (v.cb, v.key_action)) = [(0, "pressed")] ∧
    pollC4_3.2.map (fun v => (v.cb, v.key_action)) = [(0, "released")] := by decide

/-- C5: jump is bound to space and gp-b0 and a change-frequency callback
is registered; a space key-down then key-up with no prior recorded key
state produce exactly two invocations, pressed then released. -/
theorem C5_key_change_two_invocations :
    keydownC5.2.map (fun v => (v.cb, v.key_action)) = [(0, "pressed")] ∧
    keyupC5.2.map (fun v => (v.cb, v.key_action)) = [(0, "released")] := by decide

/-- C6 counterexample: at the boundary value v with abs v = deadzone
(here v = deadzone = 0.1), the claim says the either condition fails and
the deadzone condition passes; the code does the opposite, because both
arms test the open interval -deadzone < v < deadzone. -/
theorem C6_boundary_counterexample :
    |qtenth| = qtenth ∧
    axis_step (some "either") (some qtenth) (some qtenth) = AxisStep.pass ∧
    axis_step (some "deadzone") (some qtenth) (some qtenth) = AxisStep.ret :=
  ⟨abs_of_pos (by decide), by decide, by decide⟩

/-- C6 amended: for every axis value v and deadzone d, the either
condition passes exactly when abs v is greater than OR EQUAL to d, and
the deadzone condition passes exactly when abs v is STRICTLY less than
d; at the boundary abs v = d, either passes and deadzone fails. -/
theorem C6_amended_either_deadzone_boundary (v d : ℚ) :
    (axis_step (some "either") (some v) (some d) = AxisStep.pass ↔ d ≤ |v|) ∧
    (axis_step (some "deadzone") (some v) (some d) = AxisStep.pass ↔ |v| < d) := by
  have he : axis_step (some "either") (some v) (some d) =
      (if (optLt (optNeg (some d)) (some v) && optLt (some v) (some d)) = true
       then AxisStep.ret else AxisStep.pass) := rfl
  have hd : axis_step (some "deadzone") (some v) (some d) =
      (if (!(optLt (optNeg (some d)) (some v) && optLt (some v) (some d))) = true
       then AxisStep.ret else AxisStep.pass) := rfl
  have habs : ((optLt (optNeg (some d)) (some v) && optLt (some v) (some d)) = true) ↔
      |v| < d := by
    simp [optLt, optNeg, abs_lt]
  cases hb : (optLt (optNeg (some d)) (some v) && optLt (some v) (some d)) with
  | false =>
      rw [hb] at habs
      simp only [Bool.false_eq_true, false_iff] at habs
      constructor
      · rw [he, hb]
        simp
        exact not_lt.mp habs
      · rw [hd, hb]
        simp
        exact not_lt.mp habs
  | true =>
      have h1 : |v| < d := habs.mp hb
      constructor
      · rw [he, hb]
        simp
        exact h1
      · rw [hd, hb]
        simp
        exact h1

/-- C7 counterexample: with the left stick previously recorded at
(0.05, 0) - inside the release deadzone of 0.1 - a poll reading (0, 0)
(also inside) still issues a return-to-rest release delivery, observed
here as a released invocation of a change-frequency callback.  The
source only requires the pair to have changed and to lie inside the
deadzone now; it never checks that the stick had been outside. -/
theorem C7_inside_move_release_counterexample :
    inside_release qtwentieth = true ∧ inside_release 0 = true ∧
    (update [some (gpLeft 0 0)] (stC7 qtwentieth 0)).2.map (fun v => (v.cb, v.key_action))
      = [(0, "released")] := by decide

/-- C9 counterexample: two change-frequency records are registered under
one action, the first with expiry 1.  One matching change dispatch
invokes only the first record: its expiry removal splices it out during
the forEach pass, so the second record shifts into the vacated index and
is skipped.  With no expiry on the first record, both are invoked. -/
theorem C9_expiry_skips_next_counterexample :
    (dispatchC9 [{ id := 0, expiry := 1, frequency := "change" },
                 { id := 1, expiry := 0, frequency := "change" }]).2.map (fun v => v.cb)
      = [0] ∧
    (dispatchC9 [{ id := 0, expiry := 0, frequency := "change" },
                 { id := 1, expiry := 0, frequency := "change" }]).2.map (fun v => v.cb)
      = [0, 1] := by decide

/-- C10 counterexample: a bind call on an axis input whose settings
contain both func and deadzone = 0 stores a binding whose deadzone field
is absent (the func branch skips the deadzone defaulting entirely), not
0.1 as the claim requires of every axis-input bind call with
deadzone = 0. -/
theorem C10_func_settings_counterexample :
    input_type_of "gp-a-left" = "gamepad_axes" ∧
    lookupTab (bind "a" ["gp-a-left"] { func := true, deadzone := some 0 } []) "gp-a-left"
      = some [mkBinding "a" "gp-a-left" { func := true, deadzone := some 0 }] ∧
    (mkBinding "a" "gp-a-left" { func := true, deadzone := some 0 }).deadzone
      ≠ some qtenth := by decide

/-- C10 amended: for every axis-input bind call whose settings contain
deadzone = 0 and no func entry, the stored binding's deadzone is 0.1 (a
falsy deadzone selects the default); moreover no bind call whatsoever
can store a deadzone of exactly 0. -/
theorem C10_amended_deadzone_default :
    ∀ (A i : String) (s : BindSettings),
      input_type_of i = "gamepad_axes" → s.func = false → s.deadzone = some 0 →
      (lookupTab (bind A [i] s []) i = some [mkBinding A i s] ∧
       (mkBinding A i s).deadzone = some qtenth) ∧
      ∀ (A' i' : String) (s' : BindSettings), (mkBinding A' i' s').deadzone ≠ some 0 := by
  intro A i s ht hf hdz
  have hjs : ∀ o : Option ℚ, jsOrQ o qtenth ≠ 0 := by
    intro o
    cases o with
    | none => simp only [jsOrQ]; decide
    | some v =>
        simp only [jsOrQ]
        split
        · decide
        · intro hc; simp_all
  refine ⟨⟨?_, ?_⟩, ?_⟩
  · simp [bind, bind1, ensureTab, memTab, lookupTab, setTab]
  · unfold mkBinding
    rw [ht, hf, hdz]
    simp [jsOrQ]
    split <;> simp
  · intro A' i' s'
    unfold mkBinding
    by_cases h1 : (input_type_of i' == "gamepad_axes") = true
    · by_cases h2 : s'.func = true
      · by_cases h3 : (i' == "gp-a-right") = true <;> simp [h1, h2, h3]
      · by_cases h3 : (i' == "gp-a-right") = true <;> simp [h1, h2, h3, hjs]
    · simp [h1]

/-- C10 witness: instantiating the amended claim at a concrete
axis-input bind call with deadzone = 0 and no func entry. -/
theorem C10_amended_deadzone_default_witness :
    input_type_of "gp-a-left" = "gamepad_axes" ∧
    (mkBinding "move" "gp-a-left" { deadzone := some 0 }).deadzone = some qtenth :=
  ⟨by decide,
   ((C10_amended_deadzone_default "move" "gp-a-left" { deadzone := some 0 }
      (by decide) rfl rfl).1).2⟩

/-! Registry lemmas for the binding-uniqueness invariant (C8). -/

theorem lookupTab_cons {κ α : Type} [BEq κ] (p : κ × α) (tab : List (κ × α)) (k : κ) :
    lookupTab (p :: tab) k = if (p.1 == k) = true then some p.2 else lookupTab tab k := by
  cases h : (p.1 == k) <;> simp [lookupTab, List.find?, h]

theorem setTab_cons {κ α : Type} [BEq κ] (p : κ × α) (tab : List (κ × α)) (k : κ) (v : α) :
    setTab (p :: tab) k v = (if (p.1 == k) = true then (p.1, v) else p) :: setTab tab k v := by
  cases h : (p.1 == k) <;> simp [setTab, h]

theorem keys_setTab {κ α : Type} [BEq κ] (tab : List (κ × α)) (k : κ) (v : α) :
    (setTab tab k v).map Prod.fst = tab.map Prod.fst := by
  induction tab with
  | nil => rfl
  | cons p rest ih =>
      rw [setTab_cons]
      by_cases h : (p.1 == k) = true <;> simp [h, ih]

theorem lookup_none_of_not_mem {κ α : Type} [BEq κ] [LawfulBEq κ]
    {tab : List (κ × α)} {k : κ} (h : k ∉ tab.map Prod.fst) :
    lookupTab tab k = Option.none := by
  induction tab with
  | nil => rfl
  | cons p rest ih =>
      rw [lookupTab_cons]
      simp only [List.map_cons, List.mem_cons] at h
      push_neg at h
      have hb : (p.1 == k) = false := by simp [beq_eq_false_iff_ne]; exact fun hc => h.1 hc.symm
      simp [hb]
      exact ih h.2

theorem countPair_cons (p : String × List Binding) (reg : Registry) (i A : String) :
    countPair (p :: reg) i A =
      (if (p.1 == i) = true then countIn p.2 A else 0) + countPair reg i A := by
  simp [countPair]

theorem countPair_append (r1 r2 : Registry) (i A : String) :
    countPair (r1 ++ r2) i A = countPair r1 i A + countPair r2 i A := by
  simp [countPair]

theorem lookup_none_countPair {reg : Registry} {i : String} (A : String)
    (h : lookupTab reg i = Option.none) : countPair reg i A = 0 := by
  induction reg with
  | nil => rfl
  | cons p rest ih =>
      rw [lookupTab_cons] at h
      rw [countPair_cons]
      by_cases hp : (p.1 == i) = true
      · simp [hp] at h
      · have hp' : (p.1 == i) = false := by simpa using hp
        simp only [hp'] at h
        simp at h
        simp [hp', ih h]

theorem lookup_some_countPair {reg : Registry} {i : String} {bs : List Binding} (A : String)
    (hnd : (reg.map Prod.fst).Nodup) (h : lookupTab reg i = some bs) :
    countPair reg i A = countIn bs A := by
  induction reg with
  | nil => simp [lookupTab] at h
  | cons p rest ih =>
      rw [lookupTab_cons] at h
      rw [countPair_cons]
      by_cases hp : (p.1 == i) = true
      · simp only [hp, if_true] at h ⊢
        have hbs : p.2 = bs := by simpa using h
        subst hbs
        have hpi : p.1 = i := eq_of_beq hp
        have hnm : i ∉ rest.map Prod.fst := hpi ▸ (List.nodup_cons.mp hnd).1
        rw [lookup_none_countPair A (lookup_none_of_not_mem hnm)]
        omega
      · have hp' : (p.1 == i) = false := by simpa using hp
        simp only [hp'] at h
        simp at h
        simp [hp', ih (List.nodup_cons.mp hnd).2 h]

theorem countPair_setTab_self {reg : Registry} {i : String} {bs : List Binding}
    (A : String) (v : List Binding) (hnd : (reg.map Prod.fst).Nodup)
    (h : lookupTab reg i = some bs) :
    countPair (setTab reg i v) i A = countIn v A := by
  induction reg with
  | nil => simp [lookupTab] at h
  | cons p rest ih =>
      rw [lookupTab_cons] at h
      rw [setTab_cons, countPair_cons]
      by_cases hp : (p.1 == i) = true
      · have hpi : p.1 = i := eq_of_beq hp
        have hnm : i ∉ rest.map Prod.fst := hpi ▸ (List.nodup_cons.mp hnd).1
        have hnm2 : i ∉ (setTab rest i v).map Prod.fst := by
          rw [keys_setTab]; exact hnm
        rw [lookup_none_countPair A (lookup_none_of_not_mem hnm2)]
        simp [hp]
      · have hp' : (p.1 == i) = false := by simpa using hp
        simp only [hp'] at h
        simp at h
        simp [hp', ih (List.nodup_cons.mp hnd).2 h]

theorem countPair_setTab_ne {i' i : String} (hne : i' ≠ i) (reg : Registry)
    (v : List Binding) (A : String) :
    countPair (setTab reg i v) i' A = countPair reg i' A := by
  induction reg with
  | nil => rfl
  | cons p rest ih =>
      rw [setTab_cons, countPair_cons, countPair_cons]
      by_cases hp : (p.1 == i) = true
      · have hpi : p.1 = i := eq_of_beq hp
        have hne2 : (p.1 == i') = false := by
          simp [beq_eq_false_iff_ne, hpi]
          exact fun hc => hne hc.symm
        simp [hp, hne2, ih]
      · simp [hp, ih]

theorem countIn_cons (b : Binding) (bs : List Binding) (A : String) :
    countIn (b :: bs) A = (if (b.action == A) = true then 1 else 0) + countIn bs A := by
  simp only [countIn, List.filter_cons]
  split <;> simp [Nat.add_comm]

theorem countIn_append (bs cs : List Binding) (A : String) :
    countIn (bs ++ cs) A = countIn bs A + countIn cs A := by
  simp [countIn, List.filter_append]

theorem countIn_erase_first_le (f : Binding → Bool) (bs : List Binding) (A : String) :
    countIn (erase_first f bs) A ≤ countIn bs A := by
  induction bs with
  | nil => simp [erase_first]
  | cons b rest ih =>
      rw [countIn_cons]
      simp only [erase_first]
      by_cases hf : f b = true
      · simp only [hf, if_true]
        split <;> omega
      · have hf' : f b = false := by simpa using hf
        simp only [hf', Bool.false_eq_true, if_false]
        rw [countIn_cons]
        omega

theorem any_action_iff (bs : List Binding) (a : String) :
    (bs.any fun b => b.action == a) = true ↔ 0 < countIn bs a := by
  rw [countIn, ← List.countP_eq_length_filter, List.countP_pos_iff, List.any_eq_true]

theorem mkBinding_action (a i : String) (s : BindSettings) :
    (mkBinding a i s).action = a := by
  unfold mkBinding
  by_cases h1 : (input_type_of i == "gamepad_axes") = true
  · by_cases h2 : s.func = true
    · by_cases h3 : (i == "gp-a-right") = true <;> simp [h1, h2, h3]
    · by_cases h3 : (i == "gp-a-right") = true <;> simp [h1, h2, h3]
  · simp [h1]

theorem lookup_append_of_none {κ α : Type} [BEq κ] {r1 : List (κ × α)} {k : κ}
    (r2 : List (κ × α)) (h : lookupTab r1 k = Option.none) :
    lookupTab (r1 ++ r2) k = lookupTab r2 k := by
  induction r1 with
  | nil => rfl
  | cons p rest ih =>
      rw [lookupTab_cons] at h
      rw [List.cons_append, lookupTab_cons]
      by_cases hp : (p.1 == k) = true
      · simp [hp] at h
      · have hp' : (p.1 == k) = false := by simpa using hp
        simp only [hp'] at h ⊢
        simp at h ⊢
        exact ih h

theorem mem_keys_of_memTab {κ α : Type} [BEq κ] [LawfulBEq κ]
    {tab : List (κ × α)} {k : κ} (h : memTab tab k = true) : k ∈ tab.map Prod.fst := by
  by_contra hc
  rw [memTab, lookup_none_of_not_mem hc] at h
  simp at h

theorem memTab_of_mem_keys {κ α : Type} [BEq κ] [LawfulBEq κ]
    {tab : List (κ × α)} {k : κ} (h : k ∈ tab.map Prod.fst) : memTab tab k = true := by
  induction tab with
  | nil => simp at h
  | cons p rest ih =>
      simp only [List.map_cons, List.mem_cons] at h
      rw [memTab, lookupTab_cons]
      by_cases hp : (p.1 == k) = true
      · simp [hp]
      · have hp' : (p.1 == k) = false := by simpa using hp
        rcases h with h | h
        · exact absurd h.symm (by simpa using hp')
        · simp only [hp', Bool.false_eq_true, if_false]
          exact ih h

/-- What bind1 does to the (i, a) count and to every other count, and
that it preserves registry well-formedness. -/
theorem bind1_spec (a i : String) (s : BindSettings) (reg : Registry) (h : RegWF reg) :
    RegWF (bind1 a s reg i) ∧ countPair (bind1 a s reg i) i a = 1 ∧
    ∀ i' A', (¬(i' = i ∧ A' = a)) →
      countPair (bind1 a s reg i) i' A' = countPair reg i' A' := by
  have hact : (mkBinding a i s).action = a := mkBinding_action a i s
  have hmk1 : countIn [mkBinding a i s] a = 1 := by
    rw [countIn_cons]
    simp [hact, countIn]
  have hmk0 : ∀ A', A' ≠ a → countIn [mkBinding a i s] A' = 0 := by
    intro A' hAa
    rw [countIn_cons]
    have : ((mkBinding a i s).action == A') = false := by
      simp only [beq_eq_false_iff_ne, hact]
      exact fun hc => hAa hc.symm
    simp [this, countIn]
  by_cases hm : memTab reg i = true
  · have hr : ensureTab reg i [] = reg := by simp [ensureTab, hm]
    obtain ⟨bs, hl⟩ : ∃ bs, lookupTab reg i = some bs := by
      cases hlk : lookupTab reg i with
      | none => rw [memTab, hlk] at hm; simp at hm
      | some bs => exact ⟨bs, rfl⟩
    have hc : countPair reg i a = countIn bs a := lookup_some_countPair a h.1 hl
    have hb1 : bind1 a s reg i =
        if (bs.any fun b => b.action == a) = true then reg
        else setTab reg i (bs ++ [mkBinding a i s]) := by
      simp only [bind1, hr, hl]
    by_cases ha : (bs.any fun b => b.action == a) = true
    · rw [hb1, if_pos ha]
      have h1 : 0 < countIn bs a := (any_action_iff bs a).mp ha
      have h2 := h.2 i a
      exact ⟨h, by omega, fun i' A' _ => rfl⟩
    · rw [hb1, if_neg ha]
      have h0 : countIn bs a = 0 := by
        have := (any_action_iff bs a).not.mp ha
        omega
      have hkeys : (setTab reg i (bs ++ [mkBinding a i s])).map Prod.fst =
          reg.map Prod.fst := keys_setTab ..
      refine ⟨⟨?_, ?_⟩, ?_, ?_⟩
      · rw [hkeys]; exact h.1
      · intro i' A'
        by_cases hii : i' = i
        · rw [hii, countPair_setTab_self A' _ h.1 hl, countIn_append]
          by_cases hAa : A' = a
          · rw [hAa, h0, hmk1]
          · rw [hmk0 A' hAa]
            have hle := h.2 i A'
            rw [lookup_some_countPair A' h.1 hl] at hle
            omega
        · rw [countPair_setTab_ne hii]
          exact h.2 i' A'
      · rw [countPair_setTab_self a _ h.1 hl, countIn_append, h0, hmk1]
      · intro i' A' hne
        by_cases hii : i' = i
        · have hAa : A' ≠ a := fun hcc => hne ⟨hii, hcc⟩
          rw [hii, countPair_setTab_self A' _ h.1 hl, countIn_append, hmk0 A' hAa,
            lookup_some_countPair A' h.1 hl]
          omega
        · rw [countPair_setTab_ne hii]
  · have hm' : memTab reg i = false := by simpa using hm
    have hnm : i ∉ reg.map Prod.fst := by
      intro hcc
      exact absurd (memTab_of_mem_keys hcc) (by simp [hm'])
    have hr : ensureTab reg i [] = reg ++ [(i, [])] := by simp [ensureTab, hm']
    have hlnone : lookupTab reg i = Option.none := lookup_none_of_not_mem hnm
    have hl : lookupTab (reg ++ [(i, [])]) i = some [] := by
      rw [lookup_append_of_none _ hlnone, lookupTab_cons]
      simp
    have hb1 : bind1 a s reg i = setTab (reg ++ [(i, [])]) i ([] ++ [mkBinding a i s]) := by
      simp only [bind1, hr, hl]
      rw [if_neg]
      simp
    have hkeys1 : (reg ++ [(i, [])]).map Prod.fst = reg.map Prod.fst ++ [i] := by simp
    have hnd1 : ((reg ++ [(i, [])]).map Prod.fst).Nodup := by
      rw [hkeys1]
      refine List.Nodup.append h.1 (by simp) ?_
      rw [List.disjoint_singleton]
      exact hnm
    have hpadd : ∀ i' A', i' ≠ i → countPair (reg ++ [(i, [])]) i' A' = countPair reg i' A' := by
      intro i' A' hii
      rw [countPair_append, countPair_cons]
      have hfa : (i == i') = false := by
        simp only [beq_eq_false_iff_ne]
        exact fun hcc => hii hcc.symm
      rw [hfa]
      simp [countPair]
    rw [hb1]
    refine ⟨⟨?_, ?_⟩, ?_, ?_⟩
    · rw [keys_setTab]
      exact hnd1
    · intro i' A'
      by_cases hii : i' = i
      · rw [hii, countPair_setTab_self A' _ hnd1 hl, List.nil_append, countIn_cons]
        split <;> simp [countIn]
      · rw [countPair_setTab_ne hii, hpadd i' A' hii]
        exact h.2 i' A'
    · rw [countPair_setTab_self a _ hnd1 hl, List.nil_append, hmk1]
    · intro i' A' hne
      by_cases hii : i' = i
      · have hAa : A' ≠ a := fun hcc => hne ⟨hii, hcc⟩
        rw [hii, countPair_setTab_self A' _ hnd1 hl, List.nil_append, hmk0 A' hAa,
          lookup_none_countPair A' hlnone]
      · rw [countPair_setTab_ne hii, hpadd i' A' hii]

theorem remove1_cons (a : String) (p : String × List Binding) (reg : Registry) (pi : String) :
    remove1 a (p :: reg) pi =
      (if (p.1 == pi) = true then (p.1, erase_first (fun b => b.action == a) p.2) else p) ::
        remove1 a reg pi := by
  cases hp : (p.1 == pi) with
  | true =>
      have heq := eq_of_beq hp
      simp [remove1, hp, heq]
  | false =>
      have hne : p.1 ≠ pi := by simpa using hp
      simp [remove1, hp, hne]

theorem keys_remove1 (a : String) (reg : Registry) (pi : String) :
    (remove1 a reg pi).map Prod.fst = reg.map Prod.fst := by
  induction reg with
  | nil => rfl
  | cons p rest ih =>
      rw [remove1_cons]
      by_cases hp : (p.1 == pi) = true <;> simp [hp, ih]

theorem countPair_remove1_le (a : String) (reg : Registry) (pi i A : String) :
    countPair (remove1 a reg pi) i A ≤ countPair reg i A := by
  induction reg with
  | nil => simp [remove1]
  | cons p rest ih =>
      by_cases hp : (p.1 == pi) = true
      · rw [remove1_cons, if_pos hp, countPair_cons, countPair_cons]
        have he := countIn_erase_first_le (fun b => b.action == a) p.2 A
        by_cases hpi : (p.1 == i) = true
        · simp only [hpi, if_true]
          omega
        · have hpi' : (p.1 == i) = false := by simpa using hpi
          simp only [hpi', Bool.false_eq_true, if_false]
          omega
      · have hp' : (p.1 == pi) = false := by simpa using hp
        rw [remove1_cons, if_neg (by simp [hp']), countPair_cons, countPair_cons]
        omega

theorem keys_clear_erase (f : Binding → Bool) (reg : Registry) :
    (reg.map fun p => (p.1, erase_first f p.2)).map Prod.fst = reg.map Prod.fst := by
  induction reg with
  | nil => rfl
  | cons p rest ih => simp [ih]

theorem countPair_clear_erase_le (a : String) (reg : Registry) (i A : String) :
    countPair (reg.map fun p => (p.1, erase_first (fun b => b.action == a) p.2)) i A
      ≤ countPair reg i A := by
  induction reg with
  | nil => simp
  | cons p rest ih =>
      rw [List.map_cons, countPair_cons, countPair_cons]
      have he := countIn_erase_first_le (fun b => b.action == a) p.2 A
      by_cases hpi : (p.1 == i) = true
      · simp only [hpi, if_true]
        omega
      · have hpi' : (p.1 == i) = false := by simpa using hpi
        simp only [hpi', Bool.false_eq_true, if_false]
        omega

theorem countPair_setTab_nil_le (reg : Registry) (k i A : String) :
    countPair (setTab reg k []) i A ≤ countPair reg i A := by
  induction reg with
  | nil => simp [setTab]
  | cons p rest ih =>
      rw [setTab_cons, countPair_cons, countPair_cons]
      by_cases hp : (p.1 == k) = true
      · simp only [hp, if_true]
        by_cases hpi : (p.1 == i) = true
        · simp only [hpi, if_true]
          have h0 : countIn ([] : List Binding) A = 0 := rfl
          omega
        · have hpi' : (p.1 == i) = false := by simpa using hpi
          simp only [hpi', Bool.false_eq_true, if_false]
          omega
      · have hp' : (p.1 == k) = false := by simpa using hp
        simp only [hp', Bool.false_eq_true, if_false]
        omega

theorem clear_wf (a : String) (reg : Registry) (h : RegWF reg) : RegWF (clear a reg) := by
  have hstep : RegWF (if memTab reg a = true then setTab reg a [] else reg) := by
    split
    · refine ⟨?_, ?_⟩
      · rw [keys_setTab]; exact h.1
      · intro i A
        calc countPair (setTab reg a []) i A ≤ countPair reg i A :=
              countPair_setTab_nil_le reg a i A
          _ ≤ 1 := h.2 i A
    · exact h
  rw [show clear a reg = ((if memTab reg a = true then setTab reg a [] else reg).map
      fun p => (p.1, erase_first (fun b => b.action == a) p.2)) from by
    simp only [clear]]
  refine ⟨?_, ?_⟩
  · rw [keys_clear_erase]
    exact hstep.1
  · intro i A
    calc countPair _ i A ≤ countPair _ i A := countPair_clear_erase_le a _ i A
      _ ≤ 1 := hstep.2 i A

theorem remove1_wf (a : String) (reg : Registry) (pi : String) (h : RegWF reg) :
    RegWF (remove1 a reg pi) := by
  refine ⟨?_, ?_⟩
  · rw [keys_remove1]; exact h.1
  · intro i A
    calc countPair (remove1 a reg pi) i A ≤ countPair reg i A :=
          countPair_remove1_le a reg pi i A
      _ ≤ 1 := h.2 i A

theorem bind_wf (a : String) (is : List String) (s : BindSettings) (reg : Registry)
    (h : RegWF reg) : RegWF (bind a is s reg) := by
  induction is generalizing reg with
  | nil => exact h
  | cons i rest ih => exact ih (bind1 a s reg i) ((bind1_spec a i s reg h).1)

theorem remove_wf (a : String) (is : List String) (reg : Registry) (h : RegWF reg) :
    RegWF (remove a is reg) := by
  induction is generalizing reg with
  | nil => exact h
  | cons i rest ih => exact ih (remove1 a reg i) (remove1_wf a reg i h)

theorem applyOp_wf (reg : Registry) (op : RegOp) (h : RegWF reg) : RegWF (applyOp reg op) := by
  cases op with
  | bindOp a is s => exact bind_wf a is s reg h
  | removeOp a is => exact remove_wf a is reg h
  | clearOp a => exact clear_wf a reg h

theorem applyOps_wf (ops : List RegOp) : RegWF (applyOps ops) := by
  have h0 : RegWF ([] : Registry) := ⟨by simp, fun i A => by simp [countPair]⟩
  rw [applyOps]
  suffices hgen : ∀ reg, RegWF reg → RegWF (ops.foldl applyOp reg) from hgen [] h0
  induction ops with
  | nil => exact fun reg h => h
  | cons op rest ih => exact fun reg h => ih (applyOp reg op) (applyOp_wf reg op h)

/-- C8: starting from the empty registry of a fresh instance, every
sequence of bind, remove and clear operations keeps at most one binding
per (input, action) pair, and binding the same (input, action) pair
twice - with any settings - leaves exactly one binding for it. -/
theorem C8_bind_idempotent_invariant :
    ∀ (ops : List RegOp) (A i : String) (s t : BindSettings),
      countPair (bind A [i] t (bind A [i] s (applyOps ops))) i A = 1 ∧
      ∀ i' A', countPair (applyOps ops) i' A' ≤ 1 := by
  intro ops A i s t
  have hwf := applyOps_wf ops
  have h1 := bind1_spec A i s (applyOps ops) hwf
  have h2 := bind1_spec A i t (bind1 A s (applyOps ops) i) h1.1
  refine ⟨?_, hwf.2⟩
  rw [show bind A [i] t (bind A [i] s (applyOps ops)) =
    bind1 A t (bind1 A s (applyOps ops) i) i from rfl]
  exact h2.2.1

/-! Dispatch-loop lemmas for the callback iteration order (C9). -/

theorem dispatchLoop_no_expiry (b : Binding) (input ka : String) (ev : EvSrc) (ctx : String)
    (haxes : (b.input_type == "gamepad_axes") = false) :
    ∀ (rem k : Nat) (arr : List CallbackRec) (invs : List Invocation),
      (∀ f ∈ arr.drop k, f.expiry = 0) →
      dispatchLoop b input ka ev ctx [] rem k arr invs =
        (arr, invs ++ (((arr.drop k).take rem).filter
            fun f => freq_ok b.input_type f.frequency ctx).map
          (fun f => mkInvocation b input ka ev [] f)) := by
  intro rem
  induction rem with
  | zero => intro k arr invs _; simp [dispatchLoop]
  | succ rem ih =>
      intro k arr invs hexp
      cases hk : arr.get? k with
      | none =>
          have hlen : arr.length ≤ k := by
            by_contra hge
            rw [List.get?_eq_none] at hk
            omega
          have hdrop : arr.drop k = [] := List.drop_eq_nil_of_le hlen
          have hdrop2 : arr.drop (k + 1) = [] := List.drop_eq_nil_of_le (by omega)
          rw [show dispatchLoop b input ka ev ctx [] (rem + 1) k arr invs =
              dispatchLoop b input ka ev ctx [] rem (k + 1) arr invs from by
            simp only [dispatchLoop, hk]]
          rw [ih (k + 1) arr invs (by rw [hdrop2]; simp), hdrop, hdrop2]
          simp
      | some f =>
          have hlt : k < arr.length := by
            by_contra hge
            rw [List.get?_eq_none.mpr (by omega)] at hk
            cases hk
          have hgf : arr.get ⟨k, hlt⟩ = f := by
            have := List.get?_eq_some.mp hk
            rcases this with ⟨h2, hval⟩
            exact hval
          have hdrop : arr.drop k = f :: arr.drop (k + 1) := by
            have h2 : arr[k] = f := by simpa using hgf
            rw [List.drop_eq_getElem_cons hlt, h2]
          have hmem : f ∈ arr.drop k := by rw [hdrop]; exact List.mem_cons_self f _
          have hf0 : f.expiry = 0 := hexp f hmem
          have hexp2 : ∀ g ∈ arr.drop (k + 1), g.expiry = 0 := by
            intro g hg
            exact hexp g (by rw [hdrop]; exact List.mem_cons_of_mem f hg)
          cases hfr : freq_ok b.input_type f.frequency ctx with
          | false =>
              rw [show dispatchLoop b input ka ev ctx [] (rem + 1) k arr invs =
                  dispatchLoop b input ka ev ctx [] rem (k + 1) arr invs from by
                simp only [dispatchLoop, hk, hfr, Bool.not_false, if_true]]
              rw [ih (k + 1) arr invs hexp2, hdrop]
              simp [hfr]
          | true =>
              rw [show dispatchLoop b input ka ev ctx [] (rem + 1) k arr invs =
                  dispatchLoop b input ka ev ctx [] rem (k + 1) arr
                    (invs ++ [mkInvocation b input ka ev [] f]) from by
                simp only [dispatchLoop, hk, hfr, Bool.not_true, Bool.false_eq_true, if_false,
                  haxes, Bool.false_and, hf0]
                norm_num]
              rw [ih (k + 1) arr (invs ++ [mkInvocation b input ka ev [] f]) hexp2, hdrop]
              simp [hfr]

/-- C9 amended: a single matching dispatch invokes the
frequency-matching callback records in registration order as long as no
record expires during the pass; but when the first record expires
(reaches zero and is removed) during the pass, the record registered
immediately after it is skipped for that occurrence, and only the
records after the skipped one are still invoked. -/
theorem C9_amended_order_and_skip :
    (∀ recs : List CallbackRec, (∀ r ∈ recs, r.expiry = 0) →
      (dispatchC9 recs).2.map (fun v => v.cb) =
        ((recs.filter fun f => freq_ok "key" f.frequency "change").map fun f => f.id)) ∧
    ∀ (r1 r2 : CallbackRec) (rest : List CallbackRec),
      r1.expiry = 1 → r1.frequency = "change" →
      (∀ r ∈ rest, r.expiry = 0 ∧ r.frequency = "change") →
      (dispatchC9 (r1 :: r2 :: rest)).2.map (fun v => v.cb) =
        r1.id :: (rest.map fun f => f.id) := by
  have hpa : ∀ recs : List CallbackRec, (dispatchC9 recs).2 =
      (dispatchLoop { action := "a", input_type := "key" } "x" "pressed"
        (.keyEv { key := "x" }) "change" [] recs.length 0 recs []).2 := fun recs => rfl
  have haxes : (({ action := "a", input_type := "key" } : Binding).input_type
      == "gamepad_axes") = false := by decide
  constructor
  · intro recs hexp
    rw [hpa recs, dispatchLoop_no_expiry _ _ _ _ _ haxes recs.length 0 recs []
      (by simpa using hexp)]
    simp [List.map_map]
    intro a ha hfr
    rfl
  · intro r1 r2 rest hexp1 hfreq1 hrest
    have hlen : (r1 :: r2 :: rest).length = rest.length + 1 + 1 := by
      simp
    have hstep : dispatchLoop { action := "a", input_type := "key" } "x" "pressed"
        (.keyEv { key := "x" }) "change" [] (r1 :: r2 :: rest).length 0 (r1 :: r2 :: rest) [] =
        dispatchLoop { action := "a", input_type := "key" } "x" "pressed"
          (.keyEv { key := "x" }) "change" [] (rest.length + 1) 1 (r2 :: rest)
          [mkInvocation { action := "a", input_type := "key" } "x" "pressed"
            (.keyEv { key := "x" }) [] r1] := by
      rw [hlen]
      generalize hfu : rest.length + 1 = fu
      simp only [dispatchLoop, List.get?, hfreq1, hexp1]
      norm_num
      rw [if_neg (by decide), if_neg (by decide)]
      simp
    have hfilter : (rest.filter fun f =>
        freq_ok ({ action := "a", input_type := "key" } : Binding).input_type
          f.frequency "change") = rest := by
      rw [List.filter_eq_self]
      intro r hr
      rw [(hrest r hr).2]
      decide
    rw [hpa, hstep, dispatchLoop_no_expiry _ _ _ _ _ haxes (rest.length + 1) 1 (r2 :: rest) _
      (by intro g hg; simp at hg; exact (hrest g hg).1)]
    simp only [List.drop_succ_cons, List.drop_zero]
    rw [List.take_of_length_le (by omega), hfilter]
    simp [List.map_map]
    exact ⟨rfl, fun a _ => rfl⟩

/-- C9 witness: instantiating the amended claim, first at two expiry-0
records of which only the first has matching frequency, then at an
expiry-1 record followed by two more, where the middle record is
skipped. -/
theorem C9_amended_order_and_skip_witness :
    (dispatchC9 [{ id := 5, expiry := 0, frequency := "change" },
                 { id := 6, expiry := 0, frequency := "continuous" }]).2.map (fun v => v.cb)
      = [5] ∧
    (dispatchC9 [{ id := 7, expiry := 1, frequency := "change" },
                 { id := 8, expiry := 0, frequency := "change" },
                 { id := 9, expiry := 0, frequency := "change" }]).2.map (fun v => v.cb)
      = [7, 9] := by
  constructor
  · have h := C9_amended_order_and_skip.1
      [{ id := 5, expiry := 0, frequency := "change" },
       { id := 6, expiry := 0, frequency := "continuous" }] (by decide)
    exact h.trans (by decide)
  · have h := C9_amended_order_and_skip.2
      { id := 7, expiry := 1, frequency := "change" }
      { id := 8, expiry := 0, frequency := "change" }
      [{ id := 9, expiry := 0, frequency := "change" }] rfl rfl (by decide)
    exact h.trans (by decide)

set_option maxHeartbeats 2000000 in
/-- C7 amended: for every previously recorded left-stick pair and every
current reading, the return-to-rest release delivery is issued on a poll
exactly when the pair changed since the previous poll AND both current
components lie inside the release deadzone - with no requirement that
the stick was ever outside the deadzone.  Observed through a
change-frequency callback, whose only released invocation comes from
that delivery. -/
theorem C7_amended_release_iff_changed_inside (p0 p1 a0 a1 : ℚ) :
    ((update [some (gpLeft a0 a1)] (stC7 p0 p1)).2.filter
        (fun v => v.key_action == "released")).map (fun v => v.cb) =
      (if ((jsNeqQ a0 (some p0) || jsNeqQ a1 (some p1))
          && inside_release a0 && inside_release a1) = true then [0] else []) := by
  have hreg : regC7 = [("gp-a-left",
      [⟨"m", false, false, false, false, "gamepad_axes", false, some qtenth,
        some "any", some "any", Option.none⟩])] := by
    decide
  have hfns : fnsC7 = [("m", [⟨0, 0, "change"⟩])] := by decide
  have hr2 : jsNeqQ (0 : ℚ) (some (0 : ℚ)) = false := by decide
  by_cases hch : (jsNeqQ a0 (some p0) || jsNeqQ a1 (some p1)) = true
  · have hch' : jsNeqQ a0 (some p0) = true ∨ jsNeqQ a1 (some p1) = true := by
      simpa using hch
    by_cases hax : axes_ok ⟨"m", false, false, false, false, "gamepad_axes", false,
        some qtenth, some "any", some "any", Option.none⟩ [a0, a1] = true
    · by_cases hin0 : inside_release a0 = true
      · by_cases hin1 : inside_release a1 = true
        · simp [update, stC7, hreg, hfns, poll_button, poll_stick_continuous, poll_left_change,
            poll_right_change, detect_button_change, key_continuous_step, process_actions,
            dispatchLoop, lookupTab, setTab, ensureTab, memTab, putTab, gpLeft, freq_ok,
            mkInvocation, jsNeqB, padAt, hch, hch', hin0, hin1, hax, hr2, List.find?]
        · have hin1' : inside_release a1 = false := by simpa using hin1
          simp [update, stC7, hreg, hfns, poll_button, poll_stick_continuous, poll_left_change,
            poll_right_change, detect_button_change, key_continuous_step, process_actions,
            dispatchLoop, lookupTab, setTab, ensureTab, memTab, putTab, gpLeft, freq_ok,
            mkInvocation, jsNeqB, padAt, hch, hch', hin0, hin1', hax, hr2, List.find?]
      · have hin0' : inside_release a0 = false := by simpa using hin0
        simp [update, stC7, hreg, hfns, poll_button, poll_stick_continuous, poll_left_change,
          poll_right_change, detect_button_change, key_continuous_step, process_actions,
          dispatchLoop, lookupTab, setTab, ensureTab, memTab, putTab, gpLeft, freq_ok,
          mkInvocation, jsNeqB, padAt, hch, hch', hin0', hax, hr2, List.find?]
    · have hax' : axes_ok ⟨"m", false, false, false, false, "gamepad_axes", false,
          some qtenth, some "any", some "any", Option.none⟩ [a0, a1] = false := by
        simpa using hax
      by_cases hin0 : inside_release a0 = true
      · by_cases hin1 : inside_release a1 = true
        · simp [update, stC7, hreg, hfns, poll_button, poll_stick_continuous, poll_left_change,
            poll_right_change, detect_button_change, key_continuous_step, process_actions,
            dispatchLoop, lookupTab, setTab, ensureTab, memTab, putTab, gpLeft, freq_ok,
            mkInvocation, jsNeqB, padAt, hch, hch', hin0, hin1, hax', hr2, List.find?]
        · have hin1' : inside_release a1 = false := by simpa using hin1
          simp [update, stC7, hreg, hfns, poll_button, poll_stick_continuous, poll_left_change,
            poll_right_change, detect_button_change, key_continuous_step, process_actions,
            dispatchLoop, lookupTab, setTab, ensureTab, memTab, putTab, gpLeft, freq_ok,
            mkInvocation, jsNeqB, padAt, hch, hch', hin0, hin1', hax', hr2, List.find?]
      · have hin0' : inside_release a0 = false := by simpa using hin0
        simp [update, stC7, hreg, hfns, poll_button, poll_stick_continuous, poll_left_change,
          poll_right_change, detect_button_change, key_continuous_step, process_actions,
          dispatchLoop, lookupTab, setTab, ensureTab, memTab, putTab, gpLeft, freq_ok,
          mkInvocation, jsNeqB, padAt, hch, hch', hin0', hax', hr2, List.find?]
  · have hchf : jsNeqQ a0 (some p0) = false ∧ jsNeqQ a1 (some p1) = false := by
      constructor <;> [skip; skip] <;> first
        | (cases h0 : jsNeqQ a0 (some p0) <;> cases h1 : jsNeqQ a1 (some p1) <;>
            simp_all)
    have hch2 : (jsNeqQ a0 (some p0) || jsNeqQ a1 (some p1)) = false := by
      simp [hchf.1, hchf.2]
    simp [update, stC7, hreg, hfns, poll_button, poll_stick_continuous, poll_left_change,
      poll_right_change, detect_button_change, key_continuous_step, process_actions,
      dispatchLoop, lookupTab, setTab, ensureTab, memTab, putTab, gpLeft, freq_ok,
      mkInvocation, jsNeqB, padAt, hchf.1, hchf.2, hch2, hr2, List.find?]

end Rebind
